import Mathlib

/-!
Shallow embedding of src/outbreak.py, an individual-based stochastic simulator
of infectious-disease spread.

Modelling conventions:
- Machine floats are modelled as rationals.  The NaN sentinel used for the
  unassigned entries of the end_times array is modelled by Option: none stands
  for NaN, and the comparison time >= NaN, which is always False in floating
  point, is modelled by geOpt returning false on none.
- The numpy RandomState is modelled as a stream of pre-sampled values together
  with a cursor; each call of an rvs sampler consumes the next stream value.
  Gamma sampling has no closed form, so a gamma draw returns the next stream
  value directly; the uniform draw applies the loc/scale transform to the
  stream value and the bernoulli draw compares the stream value with the
  probability p.  The order of draws follows the source exactly.
- Python object references are modelled as indices into the population list
  (an arena): the infector field and the infected list hold such indices.
  The simulation loop passes the index of the updating agent and the index
  that a newly created agent will occupy into the update call.
- The inner loop of simulate iterates over a live, growing list; in Python
  this loop can diverge (for a negative infect_delta combined with degenerate
  draws), so the embedded loop takes a fuel argument and reports fuel
  exhaustion as an error value distinct from any behaviour of the source.
- The counters array has numpy dtype int32 in the source, whose increments
  wrap around silently on overflow; its cells are modelled as integers with
  an explicit wraparound into the signed 32-bit range (int32wrap) applied on
  every increment.
- A StopIteration crash of the status iterator is modelled as an error value,
  and the ZeroDivisionError raised by mean_inf_period / R0 at R0 = 0 is
  modelled as an error value returned before the index case is created.
- The trace component of the inner loop (passGo) is ghost instrumentation: it
  records, for every update call made during one pass, the agent index, the
  time, and whether the call produced a new infectee.  It is threaded through
  without influencing any other component and exists only to state the
  same-step visitation property of the loop.
-/

namespace Outbreak

/-- Abstract random source: a stream of pre-sampled values and a cursor.
Models np.random.RandomState. -/
structure RState where
  vals : ℕ → ℚ
  pos : ℕ

/-- Consume the next value of the stream. -/
def RState.next (s : RState) : ℚ × RState :=
  (s.vals s.pos, { s with pos := s.pos + 1 })

/-- Models ss.gamma.rvs(a, scale): the sampled value is the next stream value
(the shape and scale arguments select the distribution being sampled; the
sampling transform itself is abstracted into the stream). -/
def gammaRvs (_a _scale : ℚ) (s : RState) : ℚ × RState :=
  s.next

/-- Models ss.uniform.rvs(loc, scale): uniform on the interval from loc to
loc + scale, obtained by rescaling the unit stream value. -/
def uniformRvs (loc scale : ℚ) (s : RState) : ℚ × RState :=
  let r := s.next
  (loc + scale * r.1, r.2)

/-- Models ss.bernoulli.rvs(p): the draw is 1 exactly when the unit stream
value falls below p. -/
def bernoulliRvs (p : ℚ) (s : RState) : Bool × RState :=
  let r := s.next
  (decide (r.1 < p), r.2)

/-- The model parameters of simulate (the params dict in the source), plus
the derived infect_delta entry that simulate inserts. -/
structure Params where
  latent_a : ℚ
  latent_scale : ℚ
  incub_loc : ℚ
  incub_scale : ℚ
  infectious_a : ℚ
  infectious_scale : ℚ
  will_recover_p : ℚ
  recover_a : ℚ
  recover_scale : ℚ
  dying_a : ℚ
  dying_scale : ℚ
  n_iter : ℕ
  output_freq : ℕ
  infect_delta : ℚ

/-- The default parameter values of simulate in the source (infect_delta is a
placeholder overwritten by setDelta before any use). -/
def defaultParams : Params :=
  { latent_a := 2, latent_scale := 5, incub_loc := 4/5, incub_scale := 2/5,
    infectious_a := 1, infectious_scale := 5, will_recover_p := 3/10,
    recover_a := 4, recover_scale := 3, dying_a := 4/9, dying_scale := 9,
    n_iter := 154, output_freq := 7, infect_delta := 0 }

/-- An infected individual.  The fields mirror the attributes of the Python
class: infector and infected hold arena indices, end_times is the 8-entry
array with none for the NaN sentinel, iterPos is the cursor of the status
iterator (index of the next trajectory entry it would yield), and istatus is
the current numeric state tag. -/
structure Infectee where
  infector : Option ℕ
  infected : List ℕ
  infection_time : ℕ
  _last_infection : ℕ
  status_trajectory : List ℕ
  end_times : ℕ → Option ℚ
  iterPos : ℕ
  istatus : ℕ
deriving Inhabited

/-- Assignment into the end_times array. -/
def setET (f : ℕ → Option ℚ) (i : ℕ) (v : ℚ) : ℕ → Option ℚ :=
  Function.update f i (some v)

/-- Constructor of Infectee.  Draw order matches the source: latent_period,
incubation_factor, infectious_period, will_recover, then exactly one of
recover_period or dying_period.  The trajectory is built as in the source:
it starts with 0, the incubation branch appends 1 or 2, then 3 is appended,
and the terminal branch extends with 4 and 6 or with 5 and 7.  The recorded
end times are shifted by the infection time at the end, the iterator starts
past the first trajectory entry and istatus is that first entry. -/
def Infectee.init (infector : Option ℕ) (infection_time : ℕ) (p : Params)
    (s : RState) : Infectee × RState :=
  let r1 := gammaRvs p.latent_a p.latent_scale s
  let latent_period := r1.1
  let r2 := uniformRvs p.incub_loc p.incub_scale r1.2
  let incubation_factor := r2.1
  let b1 : List ℕ × (ℕ → Option ℚ) :=
    if incubation_factor > 1 then
      ([0, 1],
       setET (setET (fun _ => none) 0 latent_period) 1
         (incubation_factor * latent_period))
    else
      ([0, 2],
       setET (setET (fun _ => none) 0 (incubation_factor * latent_period)) 2
         latent_period)
  let traj2 := b1.1 ++ [3]
  let r3 := gammaRvs p.infectious_a p.infectious_scale r2.2
  let infectious_period := r3.1
  let two_periods := latent_period + infectious_period
  let et2 := setET b1.2 3 two_periods
  let r4 := bernoulliRvs p.will_recover_p r3.2
  let b2 : List ℕ × ℚ × RState :=
    if r4.1 then
      let r5 := gammaRvs p.recover_a p.recover_scale r4.2
      (traj2 ++ [4, 6], two_periods + r5.1, r5.2)
    else
      let r5 := gammaRvs p.dying_a p.dying_scale r4.2
      (traj2 ++ [5, 7], two_periods + r5.1, r5.2)
  let traj := b2.1
  let et3 := setET et2 (traj.getD (traj.length - 2) 0) b2.2.1
  let et4 := fun i => (et3 i).map (fun v => v + (infection_time : ℚ))
  (⟨infector, [], infection_time, infection_time, traj, et4, 1,
    traj.getD 0 0⟩, b2.2.2)

/-- Mark the agent at the given arena index as infected by self; returns the
index, as the source method returns the other agent. -/
def Infectee.infect (a : Infectee) (otherIdx : ℕ) : Infectee × ℕ :=
  ({ a with infected := a.infected ++ [otherIdx] }, otherIdx)

/-- Whether self can infect others: true exactly for numeric state tags 2
(latent-infectious) and 3 (symptoms). -/
def Infectee.can_infect (a : Infectee) : Bool :=
  (a.istatus == 2) || (a.istatus == 3)

/-- Time of the next phase of the infection, the property _time_next of the
source: the end_times entry of the current state (possibly NaN). -/
def Infectee.timeNext (a : Infectee) : Option ℚ :=
  a.end_times a.istatus

/-- The comparison time >= x where x may be NaN: false on none, mirroring
floating-point comparison with NaN. -/
def geOpt (t : ℚ) : Option ℚ → Bool
  | none => false
  | some v => decide (v ≤ t)

/-- First statement of update: a single conditional advance of the status
iterator.  none models a StopIteration crash of next on an exhausted
iterator. -/
def Infectee.advance (a : Infectee) (time : ℕ) : Option Infectee :=
  if geOpt (time : ℚ) a.timeNext then
    match a.status_trajectory[a.iterPos]? with
    | some st => some { a with istatus := st, iterPos := a.iterPos + 1 }
    | none => none
  else
    some a

/-- The update method: conditionally advance the state, then, if infectious
and the time elapsed since the last transmission strictly exceeds
infect_delta, create a new infectee (consuming random draws), record it in
the infected list, reset the transmission clock and return it.  The result
is none on a StopIteration crash, otherwise the updated self, the optional
new infectee and the resulting random state. -/
def Infectee.update (a : Infectee) (selfIdx newIdx time : ℕ) (p : Params)
    (s : RState) : Option (Infectee × Option Infectee × RState) :=
  match a.advance time with
  | none => none
  | some a1 =>
    if a1.can_infect then
      if (time : ℚ) - (a1._last_infection : ℚ) > p.infect_delta then
        let r := Infectee.init (some selfIdx) time p s
        let a2 := (a1.infect newIdx).1
        some ({ a2 with _last_infection := time }, some r.1, r.2)
      else
        some (a1, none, s)
    else
      some (a1, none, s)

/-- Wrap an integer into the signed 32-bit range, as numpy int32 arithmetic
does on overflow. -/
def int32wrap (z : ℤ) : ℤ :=
  (z + 2 ^ 31) % 2 ^ 32 - 2 ^ 31

/-- The 2-D counter array, as a function from row (output bucket) and column
(state tag) to a count; the cells are int32 in the source (np.zeros with
dtype np.int32). -/
abbrev Cnt := ℕ → ℕ → ℤ

/-- Increment one cell of the counter array, with int32 wraparound as in the
source. -/
def bumpCnt (c : Cnt) (r j : ℕ) : Cnt :=
  fun r0 j0 => if r0 = r ∧ j0 = j then int32wrap (c r0 j0 + 1) else c r0 j0

/-- Failure modes of the embedded simulation: the ZeroDivisionError raised at
R0 = 0, the StopIteration crash of an exhausted status iterator, and
exhaustion of the artificial fuel bound of the inner loop. -/
inductive SimError where
  | zeroDivisionError
  | stopIteration
  | outOfFuel
deriving DecidableEq

/-- One pass of the inner loop of simulate at a fixed time: iterate by index
over the live, growing population list; update each agent, append a produced
infectee immediately, and on output steps count the updated agent into row
i_counter of the counters.  The last component is the ghost trace of update
calls. -/
def passGo (p : Params) (time i_counter : ℕ) :
    ℕ → List Infectee → ℕ → RState → Cnt → List (ℕ × ℕ × Bool) →
    Except SimError (List Infectee × RState × Cnt × List (ℕ × ℕ × Bool))
  | 0, pop, i, s, cnt, tr =>
    if i < pop.length then .error .outOfFuel else .ok (pop, s, cnt, tr)
  | fuel + 1, pop, i, s, cnt, tr =>
    if i < pop.length then
      match (pop.getD i default).update i pop.length time p s with
      | none => .error .stopIteration
      | some (a1, produced, s1) =>
        let pop1 := pop.set i a1
        let cnt1 := if time % p.output_freq = 0 then
            bumpCnt cnt i_counter a1.istatus
          else cnt
        match produced with
        | some nb =>
          passGo p time i_counter fuel (pop1 ++ [nb]) (i + 1) s1 cnt1
            (tr ++ [(i, time, true)])
        | none =>
          passGo p time i_counter fuel pop1 (i + 1) s1 cnt1
            (tr ++ [(i, time, false)])
    else
      .ok (pop, s, cnt, tr)

/-- The while loop of simulate: per remaining step, increment the time, run
one pass over the population, and after an output step advance the row
counter. -/
def runSteps (p : Params) (fuel : ℕ) :
    ℕ → ℕ → List Infectee → RState → Cnt → ℕ →
    Except SimError (List Infectee × RState × Cnt × ℕ)
  | _, 0, pop, s, cnt, ic => .ok (pop, s, cnt, ic)
  | time, r + 1, pop, s, cnt, ic =>
    match passGo p (time + 1) ic fuel pop 0 s cnt [] with
    | .error e => .error e
    | .ok (pop1, s1, cnt1, _) =>
      runSteps p fuel (time + 1) r pop1 s1 cnt1
        (if (time + 1) % p.output_freq = 0 then ic + 1 else ic)

/-- Conversion of R0 into the period between infections caused by a single
individual: infect_delta is the mean infectious period (gamma shape times
scale) divided by R0. -/
def setDelta (R0 : ℚ) (p : Params) : Params :=
  { p with infect_delta := p.infectious_a * p.infectious_scale / R0 }

/-- The simulate function, also returning the final population (the source
returns only the counters; simulate below projects them out).  At R0 = 0 the
division mean_inf_period / R0 raises ZeroDivisionError before the index case
is created. -/
def simulateFull (R0 : ℚ) (p0 : Params) (s : RState) (fuel : ℕ) :
    Except SimError (Cnt × List Infectee) :=
  if R0 = 0 then .error .zeroDivisionError
  else
    let p := setDelta R0 p0
    let r0 := Infectee.init none 0 p s
    match runSteps p fuel 0 p.n_iter [r0.1] r0.2 (fun _ _ => 0) 0 with
    | .error e => .error e
    | .ok (pop, _, cnt, _) => .ok (cnt, pop)

/-- The simulate function of the source: the counter array (or an error). -/
def simulate (R0 : ℚ) (p0 : Params) (s : RState) (fuel : ℕ) :
    Except SimError Cnt :=
  (simulateFull R0 p0 s fuel).map Prod.fst

/-- The latent period drawn first during agent construction (value of the
first stream draw). -/
def latentDraw (p : Params) (s : RState) : ℚ :=
  (gammaRvs p.latent_a p.latent_scale s).1

/-- The incubation factor drawn second during agent construction. -/
def incubDraw (p : Params) (s : RState) : ℚ :=
  (uniformRvs p.incub_loc p.incub_scale (gammaRvs p.latent_a p.latent_scale s).2).1

/-- A concrete random stream: every draw is 1. -/
def sConst : RState := ⟨fun _ => 1, 0⟩

/-- Small concrete parameter set for concrete runs: two steps, output every
step, unit mean infectious period, recovery probability zero, incubation
factor drawn as 0 + 2 * u. -/
def pW : Params :=
  { latent_a := 2, latent_scale := 5, incub_loc := 0, incub_scale := 2,
    infectious_a := 1, infectious_scale := 1, will_recover_p := 0,
    recover_a := 4, recover_scale := 3, dying_a := 1, dying_scale := 9,
    n_iter := 2, output_freq := 1, infect_delta := 0 }

/-- Parameter set with a unit inter-infection threshold, for update-level
witnesses that bypass simulate. -/
def pDelta1 : Params :=
  { pW with infect_delta := 1 }

/-- A concrete agent resting in the terminal state dead-adjacent tag 6
(recovered) with all end times unassigned (NaN). -/
def agTerminal : Infectee :=
  ⟨none, [], 0, 0, [0, 2, 3, 4, 6], fun _ => none, 5, 6⟩

/-- A concrete agent in state 2 (latent-infectious), able to transmit. -/
def agInfectious : Infectee :=
  ⟨none, [], 0, 0, [0, 2, 3, 4, 6], fun _ => none, 3, 2⟩

/-- A concrete agent still latent (state 0). -/
def agLatent : Infectee :=
  ⟨none, [], 0, 0, [0, 2, 3, 4, 6], fun _ => none, 1, 0⟩

/-- Result of the concrete run with a negative basic reproduction number. -/
def simNeg2 : Cnt × List Infectee :=
  (simulateFull (-1) pW sConst 20).toOption.getD (fun _ _ => 0, [])

/-- Result of one concrete inner-loop pass at time 2 over a single
infectious agent, during which a new agent is created and then visited. -/
def passW4 : List Infectee × RState × Cnt × List (ℕ × ℕ × Bool) :=
  (passGo pDelta1 2 0 10 [agInfectious] 0 sConst (fun _ _ => 0) []).toOption.getD
    ([], sConst, fun _ _ => 0, [])

theorem init_fields (inf : Option ℕ) (t : ℕ) (p : Params) (s : RState) :
    (Infectee.init inf t p s).1.infector = inf ∧
    (Infectee.init inf t p s).1.infected = [] ∧
    (Infectee.init inf t p s).1.infection_time = t ∧
    (Infectee.init inf t p s).1._last_infection = t ∧
    (Infectee.init inf t p s).1.iterPos = 1 :=
  ⟨rfl, rfl, rfl, rfl, rfl⟩

theorem init_traj_cases (inf : Option ℕ) (t : ℕ) (p : Params) (s : RState) :
    (Infectee.init inf t p s).1.status_trajectory = [0, 1, 3, 4, 6] ∨
    (Infectee.init inf t p s).1.status_trajectory = [0, 1, 3, 5, 7] ∨
    (Infectee.init inf t p s).1.status_trajectory = [0, 2, 3, 4, 6] ∨
    (Infectee.init inf t p s).1.status_trajectory = [0, 2, 3, 5, 7] := by
  unfold Infectee.init
  dsimp only
  split <;> split <;> simp

theorem init_end_times_67 (inf : Option ℕ) (t : ℕ) (p : Params) (s : RState) :
    (Infectee.init inf t p s).1.end_times 6 = none ∧
    (Infectee.init inf t p s).1.end_times 7 = none := by
  unfold Infectee.init
  dsimp only
  split <;> split <;>
    simp [setET, Function.update]

theorem advance_shape (a a0 : Infectee) (t : ℕ)
    (h : a.advance t = some a0) :
    a0.infector = a.infector ∧ a0.infected = a.infected ∧
    a0.infection_time = a.infection_time ∧
    a0._last_infection = a._last_infection ∧
    a0.status_trajectory = a.status_trajectory ∧
    a0.end_times = a.end_times ∧
    ((geOpt (t : ℚ) a.timeNext = false ∧ a0 = a) ∨
     (geOpt (t : ℚ) a.timeNext = true ∧
      a.status_trajectory[a.iterPos]? = some a0.istatus ∧
      a0.iterPos = a.iterPos + 1)) := by
  unfold Infectee.advance at h
  split at h
  · rename_i hguard
    split at h
    · rename_i st hst
      cases h
      exact ⟨rfl, rfl, rfl, rfl, rfl, rfl, Or.inr ⟨hguard, hst, rfl⟩⟩
    · cases h
  · rename_i hguard
    cases h
    exact ⟨rfl, rfl, rfl, rfl, rfl, rfl,
      Or.inl ⟨Bool.not_eq_true _ ▸ Bool.of_not_eq_true hguard, rfl⟩⟩

theorem update_shape (a a1 : Infectee) (i n t : ℕ) (p : Params) (s : RState)
    (pr : Option Infectee) (s1 : RState)
    (h : a.update i n t p s = some (a1, pr, s1)) :
    ∃ a0, a.advance t = some a0 ∧
      a1.istatus = a0.istatus ∧ a1.iterPos = a0.iterPos ∧
      a1.status_trajectory = a0.status_trajectory ∧
      a1.end_times = a0.end_times ∧
      ((pr = none ∧ a1 = a0 ∧ s1 = s) ∨
       (a0.can_infect = true ∧
        p.infect_delta < (t : ℚ) - (a0._last_infection : ℚ) ∧
        a1 = { a0 with infected := a0.infected ++ [n], _last_infection := t } ∧
        pr = some (Infectee.init (some i) t p s).1 ∧
        s1 = (Infectee.init (some i) t p s).2)) := by
  unfold Infectee.update at h
  cases hadv : a.advance t with
  | none =>
    rw [hadv] at h
    cases h
  | some a0 =>
    rw [hadv] at h
    dsimp only at h
    by_cases hci : a0.can_infect
    · rw [if_pos hci] at h
      by_cases hlt : (t : ℚ) - (a0._last_infection : ℚ) > p.infect_delta
      · rw [if_pos hlt] at h
        dsimp only [Infectee.infect] at h
        cases h
        exact ⟨a0, rfl, rfl, rfl, rfl, rfl, Or.inr ⟨hci, hlt, rfl, rfl, rfl⟩⟩
      · rw [if_neg hlt] at h
        cases h
        exact ⟨a1, rfl, rfl, rfl, rfl, rfl, Or.inl ⟨rfl, rfl, rfl⟩⟩
    · rw [if_neg hci] at h
      cases h
      exact ⟨a1, rfl, rfl, rfl, rfl, rfl, Or.inl ⟨rfl, rfl, rfl⟩⟩

theorem update_no_transmit (a : Infectee) (i n t : ℕ) (p : Params) (s : RState)
    (a1 : Infectee) (pr : Option Infectee) (s1 : RState)
    (hlast : a._last_infection = t) (hd : 0 ≤ p.infect_delta)
    (h : a.update i n t p s = some (a1, pr, s1)) :
    pr = none ∧ a1._last_infection = t ∧ s1 = s := by
  obtain ⟨a0, hadv, _, _, _, _, hcase⟩ := update_shape a a1 i n t p s pr s1 h
  have hlast0 : a0._last_infection = t :=
    (advance_shape a a0 t hadv).2.2.2.1.trans hlast
  rcases hcase with ⟨h1, h2, h3⟩ | ⟨_, hlt, _, _, _⟩
  · subst h2
    exact ⟨h1, hlast0, h3⟩
  · rw [hlast0, sub_self] at hlt
    exact absurd hlt (not_lt.2 hd)

theorem getD_set_ne (l : List Infectee) (i j : ℕ) (a : Infectee) (h : i ≠ j) :
    (l.set i a).getD j default = l.getD j default := by
  rw [List.getD_eq_getElem?_getD, List.getD_eq_getElem?_getD, List.getElem?_set_ne h]

theorem getD_set_self (l : List Infectee) (i : ℕ) (a : Infectee) (h : i < l.length) :
    (l.set i a).getD i default = a := by
  rw [List.getD_eq_getElem?_getD, List.getElem?_set_self h]
  rfl

theorem getD_append_left (l l2 : List Infectee) (j : ℕ) (h : j < l.length) :
    (l ++ l2).getD j default = l.getD j default := by
  rw [List.getD_eq_getElem?_getD, List.getD_eq_getElem?_getD, List.getElem?_append_left h]

theorem getD_concat_self (l : List Infectee) (a : Infectee) :
    (l ++ [a]).getD l.length default = a := by
  rw [List.getD_eq_getElem?_getD, List.getElem?_concat_length]
  rfl

theorem update_newborn_last (a : Infectee) (i n t : ℕ) (p : Params) (s : RState)
    (a1 nb : Infectee) (s1 : RState)
    (h : a.update i n t p s = some (a1, some nb, s1)) :
    nb._last_infection = t := by
  obtain ⟨a0, _, _, _, _, _, hcase⟩ := update_shape a a1 i n t p s (some nb) s1 h
  rcases hcase with ⟨hn, _, _⟩ | ⟨_, _, _, hpr, _⟩
  · cases hn
  · cases hpr
    exact (init_fields (some i) t p s).2.2.2.1

theorem passGo_newborn_aux (p : Params) (t ic startLen : ℕ)
    (hd : 0 ≤ p.infect_delta) :
    ∀ fuel pop i s cnt tr popF sF cntF trF,
      passGo p t ic fuel pop i s cnt tr = .ok (popF, sF, cntF, trF) →
      (∀ j, j < pop.length → startLen ≤ j →
        (pop.getD j default)._last_infection = t) →
      (∀ j, startLen ≤ j → j < i → j < pop.length → (j, t, false) ∈ tr) →
      ∀ j, j < popF.length → startLen ≤ j →
        (popF.getD j default)._last_infection = t ∧ (j, t, false) ∈ trF := by
  intro fuel
  induction fuel with
  | zero =>
    intro pop i s cnt tr popF sF cntF trF h h1 h2 j hjF hj
    unfold passGo at h
    split at h
    · cases h
    · rename_i hge
      cases h
      exact ⟨h1 j hjF hj, h2 j hj (by omega) hjF⟩
  | succ fuel ih =>
    intro pop i s cnt tr popF sF cntF trF h h1 h2 j hjF hj
    unfold passGo at h
    split at h
    · rename_i hlt
      split at h
      · cases h
      · rename_i a1 produced s1 hupd
        dsimp only at h
        split at h
        · rename_i nb
          by_cases his : startLen ≤ i
          · exact absurd (update_no_transmit (pop.getD i default) i pop.length t p s
              a1 (some nb) s1 (h1 i hlt his) hd hupd).1 (by simp)
          · refine ih _ _ _ _ _ _ _ _ _ h ?_ ?_ j hjF hj
            · intro j0 hj0 hsj0
              simp only [List.length_append, List.length_set, List.length_cons,
                List.length_nil] at hj0
              rcases Nat.lt_or_ge j0 pop.length with hcase | hcase
              · rw [getD_append_left _ _ _ (by simpa [List.length_set] using hcase),
                  getD_set_ne _ _ _ _ (by omega)]
                exact h1 j0 hcase hsj0
              · have hj0e : j0 = pop.length := by omega
                have hlen : (pop.set i a1).length = pop.length := List.length_set _ _ _
                rw [hj0e, ← hlen, getD_concat_self]
                exact update_newborn_last (pop.getD i default) i pop.length t p s a1 nb s1 hupd
            · intro j0 hsj0 hlt0 hlen0
              have : j0 < i := by omega
              exact List.mem_append_left _ (h2 j0 hsj0 this (by omega))
        · have hnt := update_no_transmit (pop.getD i default) i pop.length t p s
            a1 none s1
          refine ih _ _ _ _ _ _ _ _ _ h ?_ ?_ j hjF hj
          · intro j0 hj0 hsj0
            simp only [List.length_set] at hj0
            rcases eq_or_ne j0 i with rfl | hne
            · rw [getD_set_self _ _ _ hj0]
              exact (hnt (h1 j0 hj0 hsj0) hd hupd).2.1
            · rw [getD_set_ne _ _ _ _ (Ne.symm hne)]
              exact h1 j0 hj0 hsj0
          · intro j0 hsj0 hlt0 hlen0
            rcases Nat.lt_or_ge j0 i with hcase | hcase
            · exact List.mem_append_left _ (h2 j0 hsj0 hcase (by
                simp only [List.length_set] at hlen0
                omega))
            · have : j0 = i := by omega
              subst this
              exact List.mem_append_right _ (by simp)
    · rename_i hge
      cases h
      exact ⟨h1 j hjF hj, h2 j hj (by omega) hjF⟩

/-- Claim C1: in a per-step update call at time t whose conditional advance
yields the agent a1, a new agent is created if and only if a1 can infect and
t minus its last transmission time strictly exceeds infect_delta; when
created, the new agent has the updating agent as infector and infection time
t, it is appended to the infected list of the updating agent, whose last
transmission time is set to t, and the inner loop appends the returned agent
to the population; otherwise the update returns nothing and leaves the
infected list and the last transmission time unchanged.  The infect_delta
threshold is the mean infectious period (gamma shape times scale) divided by
R0. -/
theorem update_transmission_spec (a a1 : Infectee) (i n t : ℕ) (p : Params)
    (s : RState) (hadv : a.advance t = some a1) :
    (¬ (a1.can_infect = true ∧
        (t : ℚ) - (a1._last_infection : ℚ) > p.infect_delta) →
      a.update i n t p s = some (a1, none, s)) ∧
    (a1.can_infect = true →
      (t : ℚ) - (a1._last_infection : ℚ) > p.infect_delta →
      a.update i n t p s =
        some ({ a1 with infected := a1.infected ++ [n], _last_infection := t },
          some (Infectee.init (some i) t p s).1,
          (Infectee.init (some i) t p s).2) ∧
      (Infectee.init (some i) t p s).1.infector = some i ∧
      (Infectee.init (some i) t p s).1.infection_time = t) ∧
    (∀ (R1 : ℚ) (q : Params),
      (setDelta R1 q).infect_delta = q.infectious_a * q.infectious_scale / R1) ∧
    (∀ (ic fuel : ℕ) (pop : List Infectee) (cnt : Cnt)
      (tr : List (ℕ × ℕ × Bool)) (a2 nb : Infectee) (s2 : RState),
      i < pop.length → pop.getD i default = a →
      a.update i pop.length t p s = some (a2, some nb, s2) →
      passGo p t ic (fuel + 1) pop i s cnt tr =
        passGo p t ic fuel (pop.set i a2 ++ [nb]) (i + 1) s2
          (if t % p.output_freq = 0 then bumpCnt cnt ic a2.istatus else cnt)
          (tr ++ [(i, t, true)])) := by
  refine ⟨?_, ?_, fun R1 q => rfl, ?_⟩
  · intro hnot
    unfold Infectee.update
    rw [hadv]
    dsimp only
    by_cases hci : a1.can_infect = true
    · rw [if_pos hci]
      rw [if_neg (fun hlt => hnot ⟨hci, hlt⟩)]
    · rw [if_neg hci]
  · intro hci hlt
    refine ⟨?_, rfl, rfl⟩
    unfold Infectee.update
    rw [hadv]
    dsimp only
    rw [if_pos hci, if_pos hlt]
    simp only [Infectee.infect]
  · intro ic fuel pop cnt tr a2 nb s2 hlt hget hupd2
    conv_lhs => rw [passGo]
    rw [if_pos hlt, hget, hupd2]

/-- Witness for claim C1: a concrete infectious agent at time 2 with unit
threshold transmits: the update returns the newborn whose infector is the
updating agent (index 0) and whose infection time is 2, and appends index 1
to the infected list while resetting the transmission clock to 2. -/
theorem update_transmission_witness :
    agInfectious.update 0 1 2 pDelta1 sConst =
      some ({ agInfectious with
          infected := agInfectious.infected ++ [1], _last_infection := 2 },
        some (Infectee.init (some 0) 2 pDelta1 sConst).1,
        (Infectee.init (some 0) 2 pDelta1 sConst).2) ∧
    (Infectee.init (some 0) 2 pDelta1 sConst).1.infector = some 0 ∧
    (Infectee.init (some 0) 2 pDelta1 sConst).1.infection_time = 2 :=
  (update_transmission_spec agInfectious agInfectious 0 1 2 pDelta1 sConst
      (by with_unfolding_all rfl)).2.1
    (by with_unfolding_all rfl)
    (of_decide_eq_true (by with_unfolding_all rfl))

/-- Claim C2: at agent construction, after drawing the latent period and the
incubation factor, if the incubation factor exceeds 1 the trajectory
continues through state 1 (symptoms-non-infectious) whose end time is the
incubation factor times the latent period, the pure-latent phase ending at
the latent period; otherwise the trajectory continues through state 2
(latent-infectious) whose end time equals the latent period, the pure-latent
phase ending earlier at the incubation factor times the latent period.  In
both branches the recorded end times are shifted by the infection time to
become absolute. -/
theorem init_branch_end_times (inf : Option ℕ) (t : ℕ) (p : Params) (s : RState) :
    if incubDraw p s > 1 then
      (Infectee.init inf t p s).1.status_trajectory.take 2 = [0, 1] ∧
      (Infectee.init inf t p s).1.end_times 1 =
        some (incubDraw p s * latentDraw p s + t) ∧
      (Infectee.init inf t p s).1.end_times 0 = some (latentDraw p s + t)
    else
      (Infectee.init inf t p s).1.status_trajectory.take 2 = [0, 2] ∧
      (Infectee.init inf t p s).1.end_times 2 = some (latentDraw p s + t) ∧
      (Infectee.init inf t p s).1.end_times 0 =
        some (incubDraw p s * latentDraw p s + t) := by
  unfold Infectee.init latentDraw incubDraw
  dsimp only
  split <;> split <;>
    simp [setET, Function.update]

/-- Claim C3: in a successful per-step update call at time t, if t is at
least the stored transition time of the current state then the trajectory
cursor advances by exactly one position and the new state tag is the next
trajectory entry; otherwise the cursor and the state tag are unchanged; in no
call does the cursor advance by more than one position. -/
theorem update_single_advance (a a1 : Infectee) (i n t : ℕ) (p : Params)
    (s : RState) (pr : Option Infectee) (s1 : RState)
    (h : a.update i n t p s = some (a1, pr, s1)) :
    (geOpt (t : ℚ) a.timeNext = true →
      a1.iterPos = a.iterPos + 1 ∧
      a.status_trajectory[a.iterPos]? = some a1.istatus) ∧
    (geOpt (t : ℚ) a.timeNext = false →
      a1.iterPos = a.iterPos ∧ a1.istatus = a.istatus) ∧
    a1.iterPos ≤ a.iterPos + 1 := by
  obtain ⟨a0, hadv, his, hpos, _, _, _⟩ := update_shape a a1 i n t p s pr s1 h
  obtain ⟨_, _, _, _, _, _, hcase⟩ := advance_shape a a0 t hadv
  rcases hcase with ⟨hg, rfl⟩ | ⟨hg, hget, hip⟩
  · refine ⟨fun hgt => ?_, fun _ => ⟨hpos, his⟩, by omega⟩
    rw [hgt] at hg
    cases hg
  · refine ⟨fun _ => ⟨by omega, by rw [hget, his]⟩, fun hgf => ?_, by omega⟩
    rw [hgf] at hg
    cases hg

/-- Witness for claim C3: a concrete latent agent whose end times are all
unassigned is updated at time 1; the guard is false and the cursor and state
are unchanged. -/
theorem update_single_advance_witness :
    (geOpt ((1 : ℕ) : ℚ) agLatent.timeNext = true →
      agLatent.iterPos = agLatent.iterPos + 1 ∧
      agLatent.status_trajectory[agLatent.iterPos]? = some agLatent.istatus) ∧
    (geOpt ((1 : ℕ) : ℚ) agLatent.timeNext = false →
      agLatent.iterPos = agLatent.iterPos ∧ agLatent.istatus = agLatent.istatus) ∧
    agLatent.iterPos ≤ agLatent.iterPos + 1 :=
  update_single_advance agLatent agLatent 0 1 1 pW sConst none sConst
    (by with_unfolding_all rfl)

/-- Claim C4: with a non-negative infect_delta, every agent appended to the
population during one pass of the inner loop (index at least the initial
population length) is itself visited later in the same pass: its update call
at the same time t appears in the trace with no production (third component
false), and its last transmission time still equals t, so that call cannot
have produced a new infection. -/
theorem same_step_visitation (p : Params) (t ic fuel : ℕ)
    (pop popF : List Infectee) (s sF : RState) (cnt cntF : Cnt)
    (trF : List (ℕ × ℕ × Bool)) (hd : 0 ≤ p.infect_delta)
    (hrun : passGo p t ic fuel pop 0 s cnt [] = .ok (popF, sF, cntF, trF)) :
    ∀ j, j < popF.length → pop.length ≤ j →
      (popF.getD j default)._last_infection = t ∧ (j, t, false) ∈ trF := by
  intro j hjF hj
  exact passGo_newborn_aux p t ic pop.length hd fuel pop 0 s cnt []
    popF sF cntF trF hrun
    (fun j0 h1 h2 => absurd h1 (by omega))
    (fun j0 _ h2 _ => absurd h2 (by omega))
    j hjF hj

/-- Witness for claim C4: in the concrete pass at time 2 over one infectious
agent, the newborn at index 1 is visited in the same pass at time 2 and
produces nothing. -/
theorem same_step_visitation_witness :
    (passW4.1.getD 1 default)._last_infection = 2 ∧ (1, 2, false) ∈ passW4.2.2.2 :=
  same_step_visitation pDelta1 2 0 10 [agInfectious] passW4.1 sConst passW4.2.1
    (fun _ _ => 0) passW4.2.2.1 passW4.2.2.2
    (of_decide_eq_true (by with_unfolding_all rfl))
    (by with_unfolding_all rfl)
    1 (of_decide_eq_true (by with_unfolding_all rfl))
    (of_decide_eq_true (by with_unfolding_all rfl))

/-- Claim C5: two runs of simulate with the same basic reproduction number,
the same parameters and the same random state (seed) return identical count
output; the output is a deterministic function of these inputs, since the
embedded random source is threaded explicitly through every draw. -/
theorem simulate_deterministic (R1 R2 : ℚ) (p1 p2 : Params) (s1 s2 : RState)
    (fuel : ℕ) (hR : R1 = R2) (hp : p1 = p2) (hs : s1 = s2) :
    simulate R1 p1 s1 fuel = simulate R2 p2 s2 fuel := by
  rw [hR, hp, hs]

/-- Witness for claim C5: a concrete run equals itself under equal inputs. -/
theorem simulate_deterministic_witness :
    simulate 1 pW sConst 10 = simulate 1 pW sConst 10 :=
  simulate_deterministic 1 1 pW pW sConst sConst 10 rfl rfl rfl

/-- Counterexample for claim C6: a concretely constructed agent has a status
trajectory of length 5, not 4, because the terminal state (6 or 7) is stored
as a trajectory entry by the constructor. -/
theorem trajectory_length_not_four :
    ¬ (Infectee.init none 0 pW sConst).1.status_trajectory.length = 4 :=
  of_decide_eq_true (by with_unfolding_all rfl)

/-- Claim C6 as amended: every constructed trajectory has length exactly 5
and is one of the four lists consisting of the latent state 0, exactly one of
the middle-branch states 1 or 2, the symptoms state 3, and both states of
exactly one terminal branch (4 then 6, or 5 then 7); the terminal state is
stored as the final trajectory entry rather than being implicit. -/
theorem trajectory_shape_amended (inf : Option ℕ) (t : ℕ) (p : Params)
    (s : RState) :
    (Infectee.init inf t p s).1.status_trajectory.length = 5 ∧
    ((Infectee.init inf t p s).1.status_trajectory = [0, 1, 3, 4, 6] ∨
     (Infectee.init inf t p s).1.status_trajectory = [0, 1, 3, 5, 7] ∨
     (Infectee.init inf t p s).1.status_trajectory = [0, 2, 3, 4, 6] ∨
     (Infectee.init inf t p s).1.status_trajectory = [0, 2, 3, 5, 7]) := by
  rcases init_traj_cases inf t p s with h | h | h | h <;> rw [h]
  · exact ⟨rfl, Or.inl rfl⟩
  · exact ⟨rfl, Or.inr (Or.inl rfl)⟩
  · exact ⟨rfl, Or.inr (Or.inr (Or.inl rfl))⟩
  · exact ⟨rfl, Or.inr (Or.inr (Or.inr rfl))⟩

/-- Counterexample for claim C8: a call of simulate with the negative basic
reproduction number -1 is not rejected: the run completes normally and at
least one agent is created. -/
theorem negative_R0_not_rejected :
    simulateFull (-1) pW sConst 20 = .ok (simNeg2.1, simNeg2.2) ∧
    1 ≤ simNeg2.2.length :=
  ⟨by with_unfolding_all rfl, of_decide_eq_true (by with_unfolding_all rfl)⟩

/-- Claim C8 as amended: only R0 = 0 aborts the call, through the division by
zero in the derivation of infect_delta, and this happens before the index
case is created, so no agent is ever created or updated and no partial result
is returned; calls with negative R0 are not rejected. -/
theorem zero_R0_division_error (p0 : Params) (s : RState) (fuel : ℕ) :
    simulateFull 0 p0 s fuel = .error .zeroDivisionError ∧
    simulate 0 p0 s fuel = .error .zeroDivisionError := by
  constructor <;> with_unfolding_all rfl

/-- Claim C9: an agent can infect exactly when its numeric state tag equals 2
(latent-infectious) or 3 (symptoms); in particular an agent whose tag is 1
(symptoms-non-infectious) cannot transmit even though it is symptomatic. -/
theorem can_infect_iff (a : Infectee) :
    (a.can_infect = true ↔ (a.istatus = 2 ∨ a.istatus = 3)) ∧
    ((a.istatus == 1) && a.can_infect) = false := by
  constructor
  · unfold Infectee.can_infect
    simp
  · unfold Infectee.can_infect
    by_cases h : a.istatus = 1 <;> simp [h]

/-- Claim C10: the constructor leaves the end-time entries of the terminal
tags 6 (recovered) and 7 (dead) unassigned (the NaN sentinel, modelled as
none), no update call ever changes the end-time array, and an update call on
an agent resting in a terminal tag whose stored end time is the sentinel
succeeds, leaves the agent unchanged and produces nothing: the advance
branch, and with it any end-of-iterator error, is unreachable once a terminal
state is reached. -/
theorem terminal_state_frozen :
    (∀ (inf : Option ℕ) (t : ℕ) (p : Params) (s : RState),
      (Infectee.init inf t p s).1.end_times 6 = none ∧
      (Infectee.init inf t p s).1.end_times 7 = none) ∧
    (∀ (a a1 : Infectee) (i n t : ℕ) (p : Params) (s : RState)
      (pr : Option Infectee) (s1 : RState),
      a.update i n t p s = some (a1, pr, s1) → a1.end_times = a.end_times) ∧
    (∀ (a : Infectee) (i n t : ℕ) (p : Params) (s : RState),
      (a.istatus = 6 ∨ a.istatus = 7) → a.end_times a.istatus = none →
      a.update i n t p s = some (a, none, s)) := by
  refine ⟨init_end_times_67, ?_, ?_⟩
  · intro a a1 i n t p s pr s1 h
    obtain ⟨a0, hadv, _, _, _, het, _⟩ := update_shape a a1 i n t p s pr s1 h
    obtain ⟨_, _, _, _, _, het0, _⟩ := advance_shape a a0 t hadv
    rw [het, het0]
  · intro a i n t p s hs6 hnone
    have hg : geOpt (t : ℚ) a.timeNext = false := by
      unfold Infectee.timeNext
      rw [hnone]
      rfl
    rcases hs6 with h | h <;>
      simp [Infectee.update, Infectee.advance, hg, Infectee.can_infect, h]

/-- Witness for claim C10: a concrete agent resting in terminal tag 6 with
all end times unassigned is updated at time 3 and remains unchanged with no
production. -/
theorem terminal_state_frozen_witness :
    agTerminal.update 0 1 3 pW sConst = some (agTerminal, none, sConst) :=
  terminal_state_frozen.2.2 agTerminal 0 1 3 pW sConst (Or.inl rfl) rfl

end Outbreak
